import Mathlib

/-!
Verification of the URL routing core (werkzeug/routing/map.py).

Strings are modelled as lists of characters.  Python values appearing in
value mappings are modelled by the inductive type PyVal (a scalar: None or a
string; or a list of scalars — the shapes that arise in URL building).  The
parts of the repository that are not in the provided source (the Rule
methods, the matcher, and the external urllib/IDNA primitives) are modelled
from the specification; each such definition carries a doc comment starting
with "Modelled from the spec:".
-/

namespace Routing

abbrev Str := List Char

def str (s : String) : Str := s.toList

/-- A scalar Python value: None or a string. -/
inductive PyItem where
  | inone
  | istr (s : Str)
deriving DecidableEq, Repr

/-- A Python value in a value mapping: None, a string, or a list. -/
inductive PyVal where
  | pynone
  | pystr (s : Str)
  | pylist (l : List PyItem)
deriving DecidableEq, Repr

def itemVal : PyItem → PyVal
  | .inone => .pynone
  | .istr s => .pystr s

abbrev Values := List (Str × PyVal)

def alookup {α : Type} : List (Str × α) → Str → Option α
  | [], _ => none
  | (k, v) :: rest, k2 => if k = k2 then some v else alookup rest k2

def lstrip (s : Str) (c : Char) : Str := s.dropWhile (fun x => x = c)

def rstrip (s : Str) (c : Char) : Str := (s.reverse.dropWhile (fun x => x = c)).reverse

def stripBoth (s : Str) (c : Char) : Str := lstrip (rstrip s c) c

def toLowerStr (s : Str) : Str := s.map Char.toLower

def toUpperStr (s : Str) : Str := s.map Char.toUpper

/-- Patterns are modelled one part per path segment: a literal segment or a
variable segment (default string converter). -/
inductive Part where
  | lit (s : Str)
  | var (name : Str)
deriving DecidableEq, Repr

def patternVars : List Part → List Str
  | [] => []
  | .lit _ :: ps => patternVars ps
  | .var n :: ps => n :: patternVars ps

/-- Modelled from the spec: a compiled Rule (rules.py is not in the provided
source).  Attributes follow section 3 of the spec: pattern, endpoint, methods
(none means any), defaults, build_only, websocket transport kind, alias flag,
the subdomain/host binding (domain_part) and an optional redirect target
(static template form). -/
structure Rule where
  endpoint : Str
  pattern : List Part
  methods : Option (List Str)
  defaults : Values
  domain_part : Str
  build_only : Bool
  websocket : Bool
  aliasFlag : Bool
  redirect_to : Option Str
deriving DecidableEq, Repr

/-- Modelled from the spec: the set of variable names the rule accepts, the
pattern variables together with the default keys (defaults are variables
omitted from the pattern but required for building). -/
def Rule.arguments (r : Rule) : List Str :=
  patternVars r.pattern ++ r.defaults.map (fun kv => kv.1)

def methodOk (ms : Option (List Str)) (method : Option Str) : Bool :=
  match method, ms with
  | some m, some allowed => allowed.contains m
  | _, _ => true

/-- Modelled from the spec: Rule.suitable_for (rules.py is not in the provided
source) — the required variables are all satisfiable from the supplied values
or the rule defaults, the method set accepts the requested method, and the
rule defaults are compatible with the supplied values. -/
def Rule.suitable_for (r : Rule) (values : Values) (method : Option Str) : Bool :=
  methodOk r.methods method &&
  (patternVars r.pattern).all
    (fun n => (alookup values n).isSome || (alookup r.defaults n).isSome) &&
  r.defaults.all (fun kv =>
    match alookup values kv.1 with
    | some v => v == kv.2
    | none => true)

/-- Modelled from the spec: Rule.provides_defaults_for — a distinct,
matchable rule of the same endpoint that carries default values. -/
def Rule.provides_defaults_for (r : Rule) (other : Rule) : Bool :=
  !r.build_only && !r.defaults.isEmpty && r.endpoint == other.endpoint &&
    r != other

/-- Substitute the pattern parts from a value mapping; variable segments must
resolve to string values (the default converter formats strings). -/
def segBuild : List Part → Values → Option (List Str)
  | [], _ => some []
  | .lit s :: ps, vs => (segBuild ps vs).map (fun rest => s :: rest)
  | .var n :: ps, vs =>
    match alookup vs n with
    | some (.pystr v) => (segBuild ps vs).map (fun rest => v :: rest)
    | _ => none

def renderPath (segs : List Str) : Str := '/' :: List.intercalate ['/'] segs

def encodeVal : PyVal → Str
  | .pystr s => s
  | .pynone => str "None"
  | .pylist _ => []

def encodePair (k : Str) (v : PyVal) : List Str :=
  match v with
  | .pylist l => l.map (fun x => k ++ '=' :: encodeVal (itemVal x))
  | v => [k ++ '=' :: encodeVal v]

/-- Modelled from the spec: the canonical query encoder — each multi-valued
entry becomes a repeated key (percent encoding, an external primitive, is
omitted). -/
def urlencodePairs (vs : Values) : Str :=
  List.intercalate ['&'] ((vs.map (fun kv => encodePair kv.1 kv.2)).flatten)

/-- Modelled from the spec: Rule.build (rules.py is not in the provided
source) — substitute the pattern variables from the values (falling back to
the rule defaults), fail when a variable is unavailable, and when
append_unknown is set append the unconsumed values as a query string.
Returns the rule's domain part and the assembled path. -/
def Rule.build (r : Rule) (values : Values) (append_unknown : Bool) :
    Option (Str × Str) :=
  match segBuild r.pattern (values ++ r.defaults) with
  | none => none
  | some segs =>
    let path := renderPath segs
    let unconsumed := values.filter (fun kv => !(r.arguments.contains kv.1))
    let path :=
      if append_unknown && !unconsumed.isEmpty then
        path ++ '?' :: urlencodePairs unconsumed
      else path
    some (r.domain_part, path)

def staticWeight : List Part → Nat
  | [] => 0
  | .lit s :: ps => s.length + staticWeight ps
  | .var _ :: ps => staticWeight ps

/-- Modelled from the spec: the build-comparison key ordering (rules.py is not
in the provided source) — rules with fewer variable parts, more static
weight, and an explicit subdomain/host binding sort before more generic
ones. -/
def buildKeyLe (a b : Rule) : Bool :=
  let av := (patternVars a.pattern).length
  let bv := (patternVars b.pattern).length
  if av ≠ bv then av < bv
  else
    let aw := staticWeight a.pattern
    let bw := staticWeight b.pattern
    if aw ≠ bw then bw < aw
    else (if a.domain_part.isEmpty then (1 : Nat) else 0) ≤
         (if b.domain_part.isEmpty then (1 : Nat) else 0)

def insertRule (r : Rule) : List Rule → List Rule
  | [] => [r]
  | x :: xs => if buildKeyLe r x then r :: x :: xs else x :: insertRule r xs

/-- A stable sort by the build-comparison key (Python's list.sort is stable;
an insertion sort placing an earlier element before later elements of equal
key is the unique stable result). -/
def sortRules : List Rule → List Rule
  | [] => []
  | r :: rs => insertRule r (sortRules rs)

/-- The rule registry with the global policies (source lines 93-123).  The
per-endpoint lists hold the rules in registration order; Map.update re-sorts
them by the build-comparison key. -/
structure Map where
  rules_by_endpoint : List (Str × List Rule)
  default_subdomain : Str
  strict_slashes : Bool
  merge_slashes : Bool
  redirect_defaults : Bool
  host_matching : Bool
deriving DecidableEq, Repr

/-- The endpoint's rule list in registration order (state before update). -/
def Map.registered (m : Map) (endpoint : Str) : List Rule :=
  (alookup m.rules_by_endpoint endpoint).getD []

/-- Map.update (source lines 360-374): the per-endpoint rule lists are sorted
by the build-comparison key (Python sort is stable, as is mergeSort); this is
the list every match and build operation observes. -/
def Map.updatedRules (m : Map) (endpoint : Str) : List Rule :=
  sortRules (m.registered endpoint)

/-- The bound routing context (source lines 386-409).  query_args is modelled
in its string form (a mapping would be encoded by an external primitive). -/
structure MapAdapter where
  map : Map
  server_name : Str
  script_name : Str
  subdomain : Option Str
  url_scheme : Str
  path_info : Str
  default_method : Str
  query_args : Option Str
deriving DecidableEq, Repr

/-- The derived websocket flag (source line 409). -/
def MapAdapter.websocket (a : MapAdapter) : Bool :=
  a.url_scheme == str "ws" || a.url_scheme == str "wss"

/-- MapAdapter.get_host (source lines 695-714). -/
def MapAdapter.get_host (a : MapAdapter) (domain_part : Option Str) : Str :=
  if a.map.host_matching then
    match domain_part with
    | none => a.server_name
    | some d => d
  else
    let subdomain : Option Str :=
      match domain_part with
      | none => a.subdomain
      | some d => some d
    match subdomain with
    | some s => if !s.isEmpty then s ++ '.' :: a.server_name else a.server_name
    | none => a.server_name

/-- MapAdapter.encode_query_args (source lines 741-744); in the string-form
model this is the identity. -/
def MapAdapter.encode_query_args (_a : MapAdapter) (q : Str) : Str := q

/-- Modelled from the spec: urllib.parse.urlunsplit, an external primitive
(scheme, netloc, path, optional query; no fragment). -/
def urlunsplit (scheme netloc url : Str) (query : Option Str) : Str :=
  let url :=
    if !netloc.isEmpty || url.take 2 = str "//" then
      str "//" ++ netloc ++
        (if url.head? = some '/' || url.isEmpty then url else '/' :: url)
    else url
  let url := if !scheme.isEmpty then scheme ++ ':' :: url else url
  match query with
  | some q => url ++ '?' :: q
  | none => url

/-- MapAdapter.make_redirect_url (source lines 746-767). -/
def MapAdapter.make_redirect_url (a : MapAdapter) (path_info : Str)
    (query_args : Option Str) (domain_part : Option Str) : Str :=
  let query_args := match query_args with | none => a.query_args | some q => some q
  let query_str : Option Str :=
    match query_args with
    | some q => if !q.isEmpty then some (a.encode_query_args q) else none
    | none => none
  let scheme := if !a.url_scheme.isEmpty then a.url_scheme else str "http"
  let host := a.get_host domain_part
  let path := stripBoth a.script_name '/' ++ '/' :: lstrip path_info '/'
  urlunsplit scheme host path query_str

/-- MapAdapter._partial_build loop over the endpoint's rule list (source
lines 809-825): the first suitable rule whose substitution succeeds wins,
except that under host matching a rule building to the bound server name
returns immediately while the first eligible result is kept as fallback. -/
def MapAdapter.partialBuildGo (a : MapAdapter) (values : Values)
    (method : Option Str) (append_unknown : Bool) :
    List Rule → Option (Str × Str × Bool) → Option (Str × Str × Bool)
  | [], first_match => first_match
  | r :: rs, first_match =>
    if r.suitable_for values method then
      match r.build values append_unknown with
      | some (d, p) =>
        let rv := (d, p, r.websocket)
        if a.map.host_matching then
          if d == a.server_name then some rv
          else
            a.partialBuildGo values method append_unknown rs
              (if first_match.isNone then some rv else first_match)
        else some rv
      | none => a.partialBuildGo values method append_unknown rs first_match
    else a.partialBuildGo values method append_unknown rs first_match

/-- MapAdapter._partial_build (source lines 786-825): with no method given,
the Adapter's default method is tried first and only on failure the scan is
re-run with method None. -/
def MapAdapter._partial_build (a : MapAdapter) (endpoint : Str)
    (values : Values) (method : Option Str) (append_unknown : Bool) :
    Option (Str × Str × Bool) :=
  match method with
  | none =>
    match a.partialBuildGo values (some a.default_method) append_unknown
        (a.map.updatedRules endpoint) none with
    | some rv => some rv
    | none =>
      a.partialBuildGo values none append_unknown
        (a.map.updatedRules endpoint) none
  | some m =>
    a.partialBuildGo values (some m) append_unknown
      (a.map.updatedRules endpoint) none

/-- The outcome of MapAdapter.build: a URL, or the BuildError signal carrying
endpoint, values and method. -/
inductive BuildResult where
  | ok (url : Str)
  | buildError (endpoint : Str) (values : Values) (method : Option Str)
deriving DecidableEq, Repr

/-- MapAdapter.build after value normalization (source lines 921-950): rule
selection, scheme and transport determination, and URL assembly. -/
def MapAdapter.buildCore (a : MapAdapter) (endpoint : Str) (values : Values)
    (method : Option Str) (force_external : Bool) (append_unknown : Bool)
    (url_scheme : Option Str) : BuildResult :=
  match a._partial_build endpoint values method append_unknown with
  | none => .buildError endpoint values method
  | some (domain_part, path, websocket) =>
    let host := a.get_host (some domain_part)
    let url_scheme := match url_scheme with | none => a.url_scheme | some s => s
    let secure := url_scheme == str "https" || url_scheme == str "wss"
    let force_external := if websocket then true else force_external
    let url_scheme :=
      if websocket then (if secure then str "wss" else str "ws")
      else if !url_scheme.isEmpty then (if secure then str "https" else str "http")
      else url_scheme
    if !force_external &&
        ((a.map.host_matching && host == a.server_name) ||
         (!a.map.host_matching && a.subdomain == some domain_part)) then
      .ok (rstrip a.script_name '/' ++ '/' :: lstrip path '/')
    else
      let scheme := if !url_scheme.isEmpty then url_scheme ++ [':'] else []
      .ok (scheme ++ str "//" ++ host ++ a.script_name.dropLast ++
           '/' :: lstrip path '/')

/-- The values argument of MapAdapter.build: absent, a plain dict, or a
MultiDict (a list of values per key). -/
inductive BuildValues where
  | novalues
  | dict (vs : Values)
  | multi (vs : List (Str × List PyItem))
deriving DecidableEq, Repr

/-- MapAdapter.build (source lines 907-950): normalize the supplied values
(source lines 909-919), then select a rule and assemble the URL. -/
def MapAdapter.build (a : MapAdapter) (endpoint : Str) (values : BuildValues)
    (method : Option Str) (force_external : Bool) (append_unknown : Bool)
    (url_scheme : Option Str) : BuildResult :=
  let values : Values :=
    match values with
    | .novalues => []
    | .dict vs =>
      if !vs.isEmpty then vs.filter (fun kv => kv.2 != PyVal.pynone) else []
    | .multi vs =>
      if !vs.isEmpty then
        vs.filterMap (fun kv =>
          if kv.2.length ≠ 0 then
            some (kv.1,
              if kv.2.length = 1 then itemVal (kv.2.headD PyItem.inone)
              else PyVal.pylist kv.2)
          else none)
      else []
  a.buildCore endpoint values method force_external append_unknown url_scheme

/-- The failure modes of make_alias_redirect_url: the inner build raised
BuildError, or the internal assertion (url differs from the requested path)
failed. -/
inductive AliasError where
  | buildFailed (endpoint : Str)
  | assertFailed
deriving DecidableEq, Repr

/-- The URL computed by make_alias_redirect_url before its assertion (source
lines 778-782): a forced-external build without unknown-appending, plus the
query string when query args are present. -/
def MapAdapter.aliasBuildUrl (a : MapAdapter) (endpoint : Str)
    (values : Values) (method : Str) (query_args : Option Str) : Option Str :=
  match a.build endpoint (.dict values) (some method) true false none with
  | .buildError _ _ _ => none
  | .ok url =>
    some (match query_args with
          | some q => if !q.isEmpty then url ++ '?' :: a.encode_query_args q else url
          | none => url)

/-- MapAdapter.make_alias_redirect_url (source lines 769-784), with the
assertion on line 783 made explicit in the result. -/
def MapAdapter.make_alias_redirect_url (a : MapAdapter) (path : Str)
    (endpoint : Str) (values : Values) (method : Str)
    (query_args : Option Str) : Except AliasError Str :=
  match a.aliasBuildUrl endpoint values method query_args with
  | none => .error (.buildFailed endpoint)
  | some url => if url ≠ path then .ok url else .error .assertFailed

/-- Python dict.update semantics: entries of ds override entries of vs in
place; new keys are appended. -/
def updateVals (vs ds : Values) : Values :=
  vs.map (fun kv =>
    match alookup ds kv.1 with
    | some v => (kv.1, v)
    | none => kv) ++
  ds.filter (fun kv => (alookup vs kv.1).isNone)

/-- The loop of MapAdapter.get_default_redirect (source lines 729-739): walk
the endpoint's (post-update, build-key-sorted) rule list, stop at the matched
rule itself, and redirect via the first earlier rule that provides defaults
for it and is suitable for the matched values and method.  When such a rule
is found the source unconditionally unpacks r.build (a failure there would be
a defect, not a routing outcome); modelled by returning none in that
unreachable case. -/
def MapAdapter.defaultRedirectGo (a : MapAdapter) (rule : Rule) (method : Str)
    (values : Values) (query_args : Option Str) : List Rule → Option Str
  | [] => none
  | r :: rs =>
    if r == rule then none
    else if r.provides_defaults_for rule &&
        r.suitable_for values (some method) then
      let values := updateVals values r.defaults
      match r.build values true with
      | some (domain_part, path) =>
        some (a.make_redirect_url path query_args (some domain_part))
      | none => none
    else a.defaultRedirectGo rule method values query_args rs

/-- MapAdapter.get_default_redirect (source lines 716-739); the list observed
by the loop is the endpoint's post-update (sorted) rule list. -/
def MapAdapter.get_default_redirect (a : MapAdapter) (rule : Rule)
    (method : Str) (values : Values) (query_args : Option Str) : Option Str :=
  a.defaultRedirectGo rule method values query_args
    (a.map.updatedRules rule.endpoint)

/-- Modelled from the spec: urllib.parse.quote restricted to ASCII, an
external percent-encoding primitive.  safe holds the characters exempt from
encoding in addition to the always-safe alphanumerics and the marks. -/
def hexDigit (n : Nat) : Char :=
  if n < 10 then Char.ofNat (48 + n) else Char.ofNat (55 + n)

def quoteChar (safe : Str) (c : Char) : Str :=
  if c.isAlphanum || c ∈ ['_', '.', '-', '~'] || c ∈ safe then [c]
  else ['%', hexDigit (c.toNat / 16 % 16), hexDigit (c.toNat % 16)]

/-- The URL path-segment-safe set used on source line 607 (the characters
listed there: bang, dollar, ampersand, apostrophe, parens, star, plus, comma,
slash, colon, semicolon, equals, at). -/
def pathSegmentSafe : Str :=
  ['!', '$', '&', Char.ofNat 39, '(', ')', '*', '+', ',', '/', ':', ';', '=', '@']

def quotePath (s : Str) : Str :=
  (s.map (quoteChar pathSegmentSafe)).flatten

/-- Interpolation of a static redirect_to template (source lines 638-644):
each angle-bracketed name is replaced by the converter-formatted matched
value (the default converter formats strings; other shapes render empty). -/
def interpGo (vals : Values) : Str → Option Str → Str
  | [], _ => []
  | c :: rest, none =>
    if c = '<' then interpGo vals rest (some [])
    else c :: interpGo vals rest none
  | c :: rest, some acc =>
    if c = '>' then
      (match alookup vals acc.reverse with
       | some (.pystr v) => v
       | _ => []) ++ interpGo vals rest none
    else interpGo vals rest (some (c :: acc))

/-- Modelled from the spec: urllib.parse.urljoin, an external primitive,
restricted to the absolute bases produced on source line 655. -/
def urljoinModel (base url : Str) : Str :=
  let scheme := base.takeWhile (fun c => c != ':')
  let rest := (base.dropWhile (fun c => c != ':')).drop 3
  let netloc := rest.takeWhile (fun c => c ≠ '/')
  let bpath := rest.dropWhile (fun c => c ≠ '/')
  if url.isEmpty then base
  else if (url.takeWhile (fun c => c ≠ '/')).contains ':' then url
  else if url.take 2 = str "//" then scheme ++ ':' :: url
  else if url.head? = some '/' then scheme ++ str "://" ++ netloc ++ url
  else
    scheme ++ str "://" ++ netloc ++
      (bpath.reverse.dropWhile (fun c => c ≠ '/')).reverse ++ url

/-- The outcome signalled by the matcher (the contract of section 4.2; the
matcher implementation is not in the provided source): a direct match, a
path-correction (RequestPath), an alias redirect (RequestAliasRedirect), or
NoMatch carrying the accumulated allowed methods and the transport-mismatch
flag. -/
inductive MatcherOutcome where
  | matched (rule : Rule) (values : Values)
  | requestPath (path : Str)
  | aliasRedirect (endpoint : Str) (matched_values : Values)
  | noMatch (have_match_for : List Str) (websocket_mismatch : Bool)
deriving DecidableEq, Repr

/-- The outcome of MapAdapter.match: a success (endpoint or rule with
values), a redirect signal, or one of the typed failures.  The two alias
failure modes surface the corresponding defects of the source (a BuildError
escaping from build, and the assert on line 783). -/
inductive MatchResult where
  | okEndpoint (endpoint : Str) (values : Values)
  | okRule (rule : Rule) (values : Values)
  | redirect (url : Str)
  | methodNotAllowed (valid_methods : List Str)
  | websocketMismatch
  | notFound
  | aliasBuildError (endpoint : Str)
  | aliasAssertError
deriving DecidableEq, Repr

/-- The effective domain part used for matching (source lines 596-599): the
server name, or the bound subdomain when host matching is disabled and a
subdomain is set. -/
def MapAdapter.matchDomain (a : MapAdapter) : Str :=
  if !a.map.host_matching then
    match a.subdomain with
    | some s => s
    | none => a.server_name
  else a.server_name

/-- The effective path handed to the matcher (source line 601): empty input
stays empty, otherwise all leading slashes are stripped and exactly one is
prepended. -/
def pathPart (path_info : Str) : Str :=
  if !path_info.isEmpty then '/' :: lstrip path_info '/' else []

/-- MapAdapter.match (source lines 586-663), parameterized by the matcher
function M (domain part, path, method, websocket flag), which is an external
collaborator of this file's source. -/
def MapAdapter.matchWith (a : MapAdapter)
    (M : Str → Str → Str → Bool → MatcherOutcome)
    (path_info : Option Str) (method : Option Str) (return_rule : Bool)
    (query_args : Option Str) (websocket : Option Bool) : MatchResult :=
  let path_info := match path_info with | none => a.path_info | some p => p
  let query_args := match query_args with | none => a.query_args | some q => some q
  let method :=
    toUpperStr (match method with
                | none => a.default_method
                | some m => if m.isEmpty then a.default_method else m)
  let websocket := match websocket with | none => a.websocket | some b => b
  let domain_part := a.matchDomain
  let path_part := pathPart path_info
  match M domain_part path_part method websocket with
  | .requestPath p =>
    .redirect (a.make_redirect_url (quotePath p) query_args none)
  | .aliasRedirect ep vals =>
    (match a.make_alias_redirect_url (domain_part ++ '|' :: path_part) ep vals
        method query_args with
     | .ok url => .redirect url
     | .error .assertFailed => .aliasAssertError
     | .error (.buildFailed e) => .aliasBuildError e)
  | .noMatch have_match_for websocket_mismatch =>
    if !have_match_for.isEmpty then .methodNotAllowed have_match_for
    else if websocket_mismatch then .websocketMismatch
    else .notFound
  | .matched rule rv =>
    match (if a.map.redirect_defaults then
             a.get_default_redirect rule method rv query_args
           else none) with
    | some url => .redirect url
    | none =>
      match rule.redirect_to with
      | some template =>
        let redirect_url := interpGo rv template none
        let netloc :=
          match a.subdomain with
          | some s => if !s.isEmpty then s ++ '.' :: a.server_name else a.server_name
          | none => a.server_name
        let scheme := if !a.url_scheme.isEmpty then a.url_scheme else str "http"
        .redirect (urljoinModel (scheme ++ str "://" ++ netloc ++ a.script_name)
          redirect_url)
      | none => if return_rule then .okRule rule rv else .okEndpoint rule.endpoint rv

/-- The outcome of Map.bind: an adapter, the BadHost failure, or the
RuntimeError raised when host matching is on and a subdomain was supplied. -/
inductive BindResult where
  | ok (a : MapAdapter)
  | badHost
  | runtimeError
deriving DecidableEq, Repr

/-- Map.bind (source lines 182-249), parameterized by the IDNA encoder enc
(an external primitive; none models a UnicodeError). -/
def Map.bind (m : Map) (enc : Str → Option Str) (server_name : Str)
    (script_name : Option Str) (subdomain : Option Str) (url_scheme : Str)
    (default_method : Str) (path_info : Option Str) (query_args : Option Str) :
    BindResult :=
  let server_name := toLowerStr server_name
  if m.host_matching && subdomain.isSome then .runtimeError
  else
    let subdomain :=
      if !m.host_matching && subdomain.isNone then some m.default_subdomain
      else subdomain
    let script_name := script_name.getD (str "/")
    let path_info := path_info.getD (str "/")
    let name := server_name.takeWhile (fun c => c != ':')
    let portPart := server_name.dropWhile (fun c => c != ':')
    match enc name with
    | none => .badHost
    | some encoded =>
      let script_name :=
        if script_name.getLast? = some '/' then script_name
        else script_name ++ ['/']
      .ok (MapAdapter.mk m (encoded ++ portPart) script_name subdomain
        url_scheme path_info default_method query_args)

/-- Match a pattern against the path segments: literals must agree, a
variable segment (default string converter) captures any nonempty segment. -/
def segMatch : List Part → List Str → Option Values
  | [], [] => some []
  | .lit s :: ps, seg :: segs => if seg == s then segMatch ps segs else none
  | .var n :: ps, seg :: segs =>
    if !seg.isEmpty then
      (segMatch ps segs).map (fun vals => (n, PyVal.pystr seg) :: vals)
    else none
  | _, _ => none

/-- Modelled from the spec: the matcher loop of the section 4.2 contract
(matcher.py is not in the provided source), restricted to exact structural
matches — the first rule on the right domain whose pattern matches wins;
rules on the wrong transport set the websocket-mismatch flag, rules on the
wrong method accumulate their allowed methods, alias rules signal the alias
redirect; Matched values are the captures together with the rule defaults.
The path-correction and slash-merging outcomes are not modelled. -/
def specMatchGo (dom : Str) (segs : List Str) (method : Str) (ws : Bool) :
    List Rule → List Str → Bool → MatcherOutcome
  | [], have_for, ws_mis => .noMatch have_for ws_mis
  | r :: rs, have_for, ws_mis =>
    if !r.build_only && r.domain_part == dom then
      match segMatch r.pattern segs with
      | some vals =>
        if r.websocket != ws then
          specMatchGo dom segs method ws rs have_for true
        else if !(methodOk r.methods (some method)) then
          specMatchGo dom segs method ws rs (have_for ++ r.methods.getD []) ws_mis
        else if r.aliasFlag then .aliasRedirect r.endpoint (vals ++ r.defaults)
        else .matched r (vals ++ r.defaults)
      | none => specMatchGo dom segs method ws rs have_for ws_mis
    else specMatchGo dom segs method ws rs have_for ws_mis

/-- Modelled from the spec: the matcher entry point over a rule list; only a
path starting with the separator can match. -/
def specMatch (rules : List Rule) (dom path method : Str) (ws : Bool) :
    MatcherOutcome :=
  if path.head? = some '/' then
    specMatchGo dom ((path.drop 1).splitOn '/') method ws rules [] false
  else .noMatch [] false

/-- A map with no rules and the default policies. -/
def emptyMap : Map :=
  { rules_by_endpoint := []
    default_subdomain := []
    strict_slashes := true
    merge_slashes := true
    redirect_defaults := true
    host_matching := false }

/-- An adapter as produced by binding emptyMap to example.com at the root. -/
def adapterA : MapAdapter :=
  { map := emptyMap
    server_name := str "example.com"
    script_name := str "/"
    subdomain := some []
    url_scheme := str "http"
    path_info := str "/"
    default_method := str "GET"
    query_args := none }

theorem matchWith_congr_path (a : MapAdapter)
    (M : Str → Str → Str → Bool → MatcherOutcome) (p q : Str)
    (method : Option Str) (rr : Bool) (qa : Option Str) (ws : Option Bool)
    (h : pathPart p = pathPart q) :
    a.matchWith M (some p) method rr qa ws = a.matchWith M (some q) method rr qa ws := by
  unfold MapAdapter.matchWith
  dsimp only
  rw [h]

theorem pathPart_cons_slash (p : Str) (h : p ≠ []) :
    pathPart ('/' :: p) = pathPart p := by
  cases p with
  | nil => exact absurd rfl h
  | cons c t => simp [pathPart, lstrip, List.dropWhile]

/-- C10: the effective path handed to the matcher is the path_info with all
leading slashes stripped and exactly one slash prepended when path_info is
nonempty (and empty when it is empty); consequently matching p, slash-p and
double-slash-p are indistinguishable for nonempty p. -/
theorem c10_path_normalization (p : Str) (h : p ≠ []) :
    pathPart p = '/' :: p.dropWhile (fun c => c = '/') ∧
    pathPart ([] : Str) = [] ∧
    (∀ (a : MapAdapter) (M : Str → Str → Str → Bool → MatcherOutcome)
       (method : Option Str) (rr : Bool) (qa : Option Str) (ws : Option Bool),
      a.matchWith M (some p) method rr qa ws =
        a.matchWith M (some ('/' :: p)) method rr qa ws ∧
      a.matchWith M (some p) method rr qa ws =
        a.matchWith M (some ('/' :: '/' :: p)) method rr qa ws) := by
  refine ⟨?_, by simp [pathPart], ?_⟩
  · cases p with
    | nil => exact absurd rfl h
    | cons c t => simp [pathPart, lstrip]
  · intro a M method rr qa ws
    constructor
    · exact matchWith_congr_path a M p ('/' :: p) method rr qa ws
        (pathPart_cons_slash p h).symm
    · exact matchWith_congr_path a M p ('/' :: '/' :: p) method rr qa ws
        (by rw [pathPart_cons_slash ('/' :: p) (by simp), pathPart_cons_slash p h])

theorem c10_path_normalization_witness :
    str "downloads" ≠ [] ∧
    pathPart (str "downloads") =
      '/' :: (str "downloads").dropWhile (fun c => c = '/') := by
  refine ⟨by decide, ?_⟩
  exact (c10_path_normalization (str "downloads") (by decide)).1

/-- C1 counterexample: a NoMatch outcome carrying both a nonempty
allowed-method set and the websocket-mismatch flag makes Adapter.match fail
with MethodNotAllowed, not WebsocketMismatch — the method-mismatch signal,
not the transport-mismatch signal, takes priority. -/
theorem c1_counterexample :
    adapterA.matchWith (fun _ _ _ _ => .noMatch [str "GET"] true)
        none none false none none = .methodNotAllowed [str "GET"] ∧
    adapterA.matchWith (fun _ _ _ _ => .noMatch [str "GET"] true)
        none none false none none ≠ .websocketMismatch := by
  constructor
  · rfl
  · decide

/-- C1 amended: when the matcher reports no usable match and the NoMatch
outcome carries a nonempty allowed-method set, Adapter.match fails with
MethodNotAllowed carrying that set, regardless of the websocket-mismatch
flag; WebsocketMismatch is raised only when the allowed-method set is
empty. -/
theorem c1_method_mismatch_priority (a : MapAdapter) (pi : Option Str)
    (method : Option Str) (rr : Bool) (qa : Option Str) (ws : Option Bool)
    (ms : List Str) (b : Bool) (h : ms ≠ []) :
    a.matchWith (fun _ _ _ _ => .noMatch ms b) pi method rr qa ws =
      .methodNotAllowed ms ∧
    a.matchWith (fun _ _ _ _ => .noMatch [] true) pi method rr qa ws =
      .websocketMismatch := by
  constructor
  · cases ms with
    | nil => exact absurd rfl h
    | cons c t => unfold MapAdapter.matchWith; simp
  · unfold MapAdapter.matchWith
    simp

theorem c1_method_mismatch_priority_witness :
    [str "GET"] ≠ ([] : List Str) ∧
    adapterA.matchWith (fun _ _ _ _ => .noMatch [str "GET"] true)
        none none false none none = .methodNotAllowed [str "GET"] := by
  refine ⟨by decide, ?_⟩
  exact (c1_method_mismatch_priority adapterA none none false none none
    [str "GET"] true (by decide)).1

/-- C6: bind lowercases the server name and splits the port suffix off
before IDNA-encoding the host portion; it fails with BadHost exactly when
that encoding fails, fails immediately with the programming error when host
matching is on and a subdomain is given, and otherwise defaults a missing
subdomain to the Map's configured default. -/
theorem c6_bind (m : Map) (enc : Str → Option Str) (sn : Str)
    (scn sd : Option Str) (us dm : Str) (pi qa : Option Str) :
    (m.bind enc sn scn sd us dm pi qa = .runtimeError ↔
      m.host_matching = true ∧ sd.isSome = true) ∧
    (¬(m.host_matching = true ∧ sd.isSome = true) →
      (m.bind enc sn scn sd us dm pi qa = .badHost ↔
        enc ((toLowerStr sn).takeWhile (fun c => c != ':')) = none)) ∧
    (m.host_matching = false → sd = none →
      ∀ ad, m.bind enc sn scn sd us dm pi qa = .ok ad →
        ad.subdomain = some m.default_subdomain) := by
  refine ⟨?_, ?_, ?_⟩
  · unfold Map.bind
    by_cases hc : (m.host_matching && sd.isSome) = true
    · rw [if_pos hc]
      rw [Bool.and_eq_true] at hc
      simp [hc]
    · rw [if_neg hc]
      rw [Bool.and_eq_true] at hc
      cases henc : enc ((toLowerStr sn).takeWhile (fun c => c != ':')) <;>
        simp [henc, hc]
  · intro hc
    unfold Map.bind
    have hc2 : (m.host_matching && sd.isSome) = false := by
      cases hm : m.host_matching <;> cases hs : sd.isSome <;> simp_all
    simp only [hc2, Bool.false_eq_true, if_false]
    cases henc : enc ((toLowerStr sn).takeWhile (fun c => c != ':')) with
    | none => simp [henc]
    | some e => simp [henc]
  · intro hm hsd ad h
    unfold Map.bind at h
    simp only [hm, hsd, Option.isSome_none, Bool.and_false, Bool.false_eq_true,
      if_false] at h
    cases henc : enc ((toLowerStr sn).takeWhile (fun c => c != ':')) with
    | none => rw [henc] at h; exact absurd h (by simp)
    | some e =>
      rw [henc] at h
      simp only [BindResult.ok.injEq] at h
      rw [← h]
      simp

/-- A map with host matching enabled and no rules. -/
def hostMap : Map :=
  { rules_by_endpoint := []
    default_subdomain := []
    strict_slashes := true
    merge_slashes := true
    redirect_defaults := true
    host_matching := true }

theorem c6_bind_witness :
    hostMap.bind (fun s => some s) (str "Example.com") none (some (str "x"))
      (str "http") (str "GET") none none = .runtimeError := by
  exact ((c6_bind hostMap (fun s => some s) (str "Example.com") none
    (some (str "x")) (str "http") (str "GET") none none).1).mpr ⟨rfl, rfl⟩

/-- Claim-side description of the value normalization of build (C5): entries
whose value is null are dropped; in the multi-valued form an empty group is
an absent entry, a single-element group collapses to its element, and a
multi-element group is preserved as an ordered sequence. -/
def specNormalize : BuildValues → Values
  | .novalues => []
  | .dict vs => vs.filter (fun kv => kv.2 != PyVal.pynone)
  | .multi vs =>
    vs.filterMap (fun kv =>
      match kv.2 with
      | [] => none
      | [v] => some (kv.1, itemVal v)
      | l => some (kv.1, PyVal.pylist l))

theorem normalizeItem_eq (kv : Str × List PyItem) :
    (if kv.2.length ≠ 0 then
      some (kv.1,
        if kv.2.length = 1 then itemVal (kv.2.headD PyItem.inone)
        else PyVal.pylist kv.2)
     else none) =
    (match kv.2 with
     | [] => none
     | [v] => some (kv.1, itemVal v)
     | l => some (kv.1, PyVal.pylist l)) := by
  rcases kv with ⟨k, l⟩
  match l with
  | [] => rfl
  | [v] => simp
  | v :: w :: t => simp

/-- C5: for every build call the supplied values mapping is normalized before
rule selection — null-valued entries are dropped, single-element MultiDict
groups collapse to their scalar element, multi-element groups are preserved
as ordered sequences — and build then operates only on the normalized
mapping (it is buildCore applied to the normalized values). -/
theorem c5_build_normalizes (a : MapAdapter) (ep : Str) (vals : BuildValues)
    (method : Option Str) (fe au : Bool) (us : Option Str) :
    a.build ep vals method fe au us =
      a.buildCore ep (specNormalize vals) method fe au us := by
  unfold MapAdapter.build specNormalize
  cases vals with
  | novalues => rfl
  | dict vs => cases vs <;> simp
  | multi vs =>
    cases vs with
    | nil => simp
    | cons hd tl =>
      simp only [List.isEmpty_cons, Bool.not_false, if_true]
      rw [show
        (fun (kv : Str × List PyItem) =>
          if kv.2.length ≠ 0 then
            some (kv.1,
              if kv.2.length = 1 then itemVal (kv.2.headD PyItem.inone)
              else PyVal.pylist kv.2)
          else none) =
        (fun (kv : Str × List PyItem) =>
          match kv.2 with
          | [] => none
          | [v] => some (kv.1, itemVal v)
          | l => some (kv.1, PyVal.pylist l)) from funext normalizeItem_eq]

theorem isEmpty_false_of_ne_nil {l : Str} (h : l ≠ []) : l.isEmpty = false := by
  cases l with
  | nil => exact absurd rfl h
  | cons a t => rfl

/-- A rule for /downloads/&lt;id&gt; under endpoint show. -/
def ruleShow : Rule :=
  { endpoint := str "show"
    pattern := [.lit (str "downloads"), .var (str "id")]
    methods := none
    defaults := []
    domain_part := []
    build_only := false
    websocket := false
    aliasFlag := false
    redirect_to := none }

/-- A map holding just ruleShow, with the default policies. -/
def mapShow : Map :=
  { rules_by_endpoint := [(str "show", [ruleShow])]
    default_subdomain := []
    strict_slashes := true
    merge_slashes := true
    redirect_defaults := true
    host_matching := false }

/-- An adapter binding mapShow to example.com at the root. -/
def adapterW : MapAdapter :=
  { map := mapShow
    server_name := str "example.com"
    script_name := str "/"
    subdomain := some []
    url_scheme := str "http"
    path_info := str "/"
    default_method := str "GET"
    query_args := none }

/-- C7: the assertion inside make_alias_redirect_url holds — for every alias
configuration whose rebuilt URL is valid (contains no raw pipe character,
which cannot appear unencoded in a URL), the result cannot equal the
comparison target, which is always the domain part, a pipe, and the
requested path; so Adapter.match never hits the assertion failure. -/
theorem c7_alias_assert (a : MapAdapter) (ep : Str) (vals : Values)
    (pi : Option Str) (m q : Str) (rr : Bool) (ws : Option Bool)
    (hm_ne : m ≠ []) (hupper : toUpperStr m = m)
    (h : ∀ url, a.aliasBuildUrl ep vals m (some q) = some url →
      ('|' : Char) ∉ url) :
    a.matchWith (fun _ _ _ _ => .aliasRedirect ep vals) pi (some m) rr
      (some q) ws ≠ .aliasAssertError := by
  unfold MapAdapter.matchWith
  dsimp only
  rw [isEmpty_false_of_ne_nil hm_ne]
  simp only [Bool.false_eq_true, if_false, hupper]
  unfold MapAdapter.make_alias_redirect_url
  cases hb : a.aliasBuildUrl ep vals m (some q) with
  | none => simp
  | some url =>
    have hpipe := h _ hb
    have hne : url ≠ a.matchDomain ++ '|' :: pathPart (match pi with
        | none => a.path_info | some p => p) := by
      intro heq
      exact hpipe (heq ▸ (List.mem_append.mpr (Or.inr (List.mem_cons_self _ _))))
    simp [hne]

theorem c7_alias_assert_witness :
    adapterW.aliasBuildUrl (str "show") [(str "id", PyVal.pystr (str "42"))]
        (str "GET") (some []) =
      some (str "http://example.com/downloads/42") ∧
    adapterW.matchWith
        (fun _ _ _ _ => .aliasRedirect (str "show")
          [(str "id", PyVal.pystr (str "42"))])
        none (some (str "GET")) false (some []) none =
      .redirect (str "http://example.com/downloads/42") ∧
    adapterW.matchWith
        (fun _ _ _ _ => .aliasRedirect (str "show")
          [(str "id", PyVal.pystr (str "42"))])
        none (some (str "GET")) false (some []) none ≠
      .aliasAssertError := by
  have hb2 : adapterW.aliasBuildUrl (str "show")
      [(str "id", PyVal.pystr (str "42"))] (str "GET") (some []) =
      some (str "http://example.com/downloads/42") := by decide
  refine ⟨hb2, by decide, ?_⟩
  apply c7_alias_assert adapterW (str "show")
    [(str "id", PyVal.pystr (str "42"))] none (str "GET") [] false none
    (by decide) (by decide)
  intro url hb
  rw [hb2] at hb
  injection hb with hu
  rw [← hu]
  decide

/-- The effective scheme build settles on (source lines 928-940): a
websocket rule gets wss or ws according to the secure-ness of the requested
scheme; otherwise a nonempty requested scheme becomes https or http
accordingly, and an empty one stays empty. -/
def MapAdapter.effectiveScheme (a : MapAdapter) (websocket : Bool)
    (us : Option Str) : Str :=
  let s := match us with | none => a.url_scheme | some s2 => s2
  let secure := s == str "https" || s == str "wss"
  if websocket then (if secure then str "wss" else str "ws")
  else if !s.isEmpty then (if secure then str "https" else str "http")
  else s

/-- The relative (script-rooted) URL form of build (source line 947). -/
def relForm (a : MapAdapter) (path : Str) : Str :=
  rstrip a.script_name '/' ++ '/' :: lstrip path '/'

/-- The absolute URL form of build (source lines 949-950); an empty scheme
yields a protocol-relative URL starting with two slashes. -/
def absForm (a : MapAdapter) (scheme host path : Str) : Str :=
  (if scheme.isEmpty then [] else scheme ++ [':']) ++ str "//" ++ host ++
    a.script_name.dropLast ++ '/' :: lstrip path '/'

theorem buildCore_eq (a : MapAdapter) (ep : Str) (vals : Values)
    (method : Option Str) (au fe : Bool) (us : Option Str) (d p : Str)
    (w : Bool) (h : a._partial_build ep vals method au = some (d, p, w)) :
    a.buildCore ep vals method fe au us =
      if (fe || w) = false ∧
          (if a.map.host_matching then d = a.server_name
           else a.subdomain = some d) then
        .ok (relForm a p)
      else .ok (absForm a (a.effectiveScheme w us) (a.get_host (some d)) p) := by
  unfold MapAdapter.buildCore
  rw [h]
  cases hhm : a.map.host_matching <;> cases hw : w <;> cases hfe : fe <;>
    simp [hhm, MapAdapter.get_host, relForm, absForm,
      MapAdapter.effectiveScheme, beq_iff_eq]

theorem length_rstrip_le (s : Str) (c : Char) : (rstrip s c).length ≤ s.length := by
  calc (rstrip s c).length
      = (s.reverse.dropWhile (fun x => x = c)).length := by simp [rstrip]
    _ ≤ s.reverse.length := (List.dropWhile_sublist _).length_le
    _ = s.length := List.length_reverse s

theorem relForm_ne_absForm (a : MapAdapter) (scheme host path : Str) :
    relForm a path ≠ absForm a scheme host path := by
  intro heq
  have hlen := congrArg List.length heq
  have h1 := length_rstrip_le a.script_name '/'
  have h2 : a.script_name.dropLast.length = a.script_name.length - 1 :=
    List.length_dropLast a.script_name
  have h3 : ((if scheme.isEmpty then [] else scheme ++ [':']) : Str).length +
      (str "//").length = (if scheme.isEmpty then [] else scheme ++ [':']).length + 2 := rfl
  simp only [relForm, absForm, List.length_append, List.length_cons] at hlen
  omega

/-- C9: given a selected rule, build returns the relative script-rooted URL
exactly when the (websocket-effective) force_external flag is off and the
selected rule's domain part equals the Adapter's own bound domain part (the
server name under host matching, the bound subdomain otherwise); in every
other case the absolute form is returned, which is protocol-relative
(starting with two slashes) when the effective scheme is empty. -/
theorem c9_relative_vs_absolute (a : MapAdapter) (ep : Str) (vals : Values)
    (method : Option Str) (au fe : Bool) (us : Option Str) (d p : Str)
    (w : Bool) (h : a._partial_build ep vals method au = some (d, p, w)) :
    (a.buildCore ep vals method fe au us =
      if (fe || w) = false ∧
          (if a.map.host_matching then d = a.server_name
           else a.subdomain = some d) then
        .ok (relForm a p)
      else .ok (absForm a (a.effectiveScheme w us) (a.get_host (some d)) p)) ∧
    (∀ path, relForm a path ≠
      absForm a (a.effectiveScheme w us) (a.get_host (some d)) path) ∧
    ((a.effectiveScheme w us).isEmpty = true →
      absForm a (a.effectiveScheme w us) (a.get_host (some d)) p =
        str "//" ++ a.get_host (some d) ++ a.script_name.dropLast ++
          '/' :: lstrip p '/') := by
  refine ⟨buildCore_eq a ep vals method au fe us d p w h, ?_, ?_⟩
  · intro path
    exact relForm_ne_absForm a _ _ path
  · intro hs
    simp [absForm, hs]

/-- A single rule for the root path. -/
def ruleIndex : Rule :=
  { endpoint := str "index"
    pattern := [.lit []]
    methods := none
    defaults := []
    domain_part := []
    build_only := false
    websocket := false
    aliasFlag := false
    redirect_to := none }

/-- A map holding just ruleIndex, with the default policies. -/
def oneMap : Map :=
  { rules_by_endpoint := [(str "index", [ruleIndex])]
    default_subdomain := []
    strict_slashes := true
    merge_slashes := true
    redirect_defaults := true
    host_matching := false }

/-- An adapter binding oneMap to example.com at the root. -/
def adapterB : MapAdapter :=
  { map := oneMap
    server_name := str "example.com"
    script_name := str "/"
    subdomain := some []
    url_scheme := str "http"
    path_info := str "/"
    default_method := str "GET"
    query_args := none }

theorem c9_relative_vs_absolute_witness :
    adapterB.buildCore (str "index") [] (some (str "GET")) false true none =
      .ok (relForm adapterB (str "/")) := by
  have h := (c9_relative_vs_absolute adapterB (str "index") [] (some (str "GET"))
    true false none [] (str "/") false (by decide)).1
  exact h.trans (by decide)

/-- C8: given a selected rule, a websocket rule always yields the absolute
form with scheme wss when the effective requested scheme is secure (https or
wss) and ws otherwise; a non-websocket rule with a nonempty requested scheme
yields, whenever the result is external (forced, or the domain part differs
from the bound one), the absolute form with scheme https when secure and
http otherwise. -/
theorem c8_websocket_scheme (a : MapAdapter) (ep : Str) (vals : Values)
    (method : Option Str) (au fe : Bool) (us : Option Str) (d p : Str)
    (w : Bool) (h : a._partial_build ep vals method au = some (d, p, w)) :
    (w = true →
      a.buildCore ep vals method fe au us =
        .ok (absForm a
          (if us.getD a.url_scheme = str "https" ∨ us.getD a.url_scheme = str "wss"
           then str "wss" else str "ws")
          (a.get_host (some d)) p)) ∧
    (w = false → us.getD a.url_scheme ≠ [] →
      (fe = true ∨
        ¬(if a.map.host_matching then d = a.server_name
          else a.subdomain = some d)) →
      a.buildCore ep vals method fe au us =
        .ok (absForm a
          (if us.getD a.url_scheme = str "https" ∨ us.getD a.url_scheme = str "wss"
           then str "https" else str "http")
          (a.get_host (some d)) p)) := by
  have heq := buildCore_eq a ep vals method au fe us d p w h
  constructor
  · intro hw
    subst hw
    rw [heq, if_neg (by simp)]
    have : a.effectiveScheme true us =
        (if us.getD a.url_scheme = str "https" ∨ us.getD a.url_scheme = str "wss"
         then str "wss" else str "ws") := by
      unfold MapAdapter.effectiveScheme
      cases us <;> simp [Option.getD, beq_iff_eq]
    rw [this]
  · intro hw hs hext
    subst hw
    rw [heq, if_neg (by
      rintro ⟨hfe, hdom⟩
      rcases hext with hfe2 | hdom2
      · simp [hfe2] at hfe
      · exact hdom2 hdom)]
    have : a.effectiveScheme false us =
        (if us.getD a.url_scheme = str "https" ∨ us.getD a.url_scheme = str "wss"
         then str "https" else str "http") := by
      unfold MapAdapter.effectiveScheme
      cases us with
      | none =>
        simp only [Option.getD] at hs ⊢
        simp [beq_iff_eq, isEmpty_false_of_ne_nil hs]
      | some s2 =>
        simp only [Option.getD] at hs ⊢
        simp [beq_iff_eq, isEmpty_false_of_ne_nil hs]
    rw [this]

theorem c8_websocket_scheme_witness :
    adapterB.buildCore (str "index") [] (some (str "GET")) true true none =
      .ok (absForm adapterB (str "http") (adapterB.get_host (some [])) (str "/")) := by
  have h := (c8_websocket_scheme adapterB (str "index") [] (some (str "GET"))
    true true none [] (str "/") false (by decide)).2 rfl (by decide) (Or.inl rfl)
  exact h.trans (by decide)

/-- The eligibility test of the spec's rule-selection step (claim-side
description of C4): a rule takes part exactly when it is suitable for the
values and method and its substitution succeeds. -/
def eligibleBuild (r : Rule) (values : Values) (method : Option Str)
    (au : Bool) : Option (Str × Str × Bool) :=
  if r.suitable_for values method then
    (r.build values au).map (fun dp => (dp.1, dp.2, r.websocket))
  else none

/-- Claim-side description of rule selection (C4): the first eligible rule
of the endpoint's pre-sorted list wins, except that under host matching the
first eligible rule building to the bound server name wins, with the first
eligible rule overall as fallback. -/
def specSelect (a : MapAdapter) (ep : Str) (values : Values)
    (method : Option Str) (au : Bool) : Option (Str × Str × Bool) :=
  let cands :=
    (a.map.updatedRules ep).filterMap (fun r => eligibleBuild r values method au)
  if a.map.host_matching then
    match cands.find? (fun rv => rv.1 == a.server_name) with
    | some rv => some rv
    | none => cands.head?
  else cands.head?

/-- Claim-side description of _partial_build (C4): with no method, first try
the Adapter's default method and only on failure retry with method None. -/
def specPartialBuild (a : MapAdapter) (ep : Str) (values : Values)
    (method : Option Str) (au : Bool) : Option (Str × Str × Bool) :=
  match method with
  | none =>
    match specSelect a ep values (some a.default_method) au with
    | some rv => some rv
    | none => specSelect a ep values none au
  | some m => specSelect a ep values (some m) au

theorem partialBuildGo_spec (a : MapAdapter) (values : Values)
    (method : Option Str) (au : Bool) :
    ∀ (l : List Rule) (first : Option (Str × Str × Bool)),
      a.partialBuildGo values method au l first =
        if a.map.host_matching then
          match (l.filterMap (fun r => eligibleBuild r values method au)).find?
              (fun rv => rv.1 == a.server_name) with
          | some rv => some rv
          | none =>
            match first with
            | some f => some f
            | none =>
              (l.filterMap (fun r => eligibleBuild r values method au)).head?
        else
          match (l.filterMap (fun r => eligibleBuild r values method au)).head? with
          | some rv => some rv
          | none => first := by
  intro l
  induction l with
  | nil =>
    intro first
    cases hm : a.map.host_matching <;> cases first <;>
      simp [MapAdapter.partialBuildGo, hm]
  | cons r rs ih =>
    intro first
    by_cases hs : r.suitable_for values method = true
    · cases hb : r.build values au with
      | none =>
        have he : eligibleBuild r values method au = none := by
          simp [eligibleBuild, hs, hb]
        simp only [MapAdapter.partialBuildGo, hs, if_true, hb]
        rw [ih first]
        simp [List.filterMap_cons, he]
      | some dp =>
        have he : eligibleBuild r values method au = some (dp.1, dp.2, r.websocket) := by
          simp [eligibleBuild, hs, hb]
        cases hm : a.map.host_matching with
        | false =>
          simp only [MapAdapter.partialBuildGo, hs, if_true, hb, hm,
            Bool.false_eq_true, if_false]
          simp [List.filterMap_cons, he]
        | true =>
          by_cases hd : (dp.1 == a.server_name) = true
          · simp only [MapAdapter.partialBuildGo, hs, if_true, hb, hm, hd]
            simp [List.filterMap_cons, he, hd]
          · simp only [MapAdapter.partialBuildGo, hs, if_true, hb, hm,
              Bool.not_eq_true] at hd ⊢
            rw [if_neg (by simp [hd]), ih]
            simp only [hm, if_true, List.filterMap_cons, he, List.find?_cons,
              hd, Bool.false_eq_true, if_false]
            cases hf : (rs.filterMap
                (fun r => eligibleBuild r values method au)).find?
                (fun rv => rv.1 == a.server_name) with
            | some rv => simp
            | none => cases first <;> simp
    · have he : eligibleBuild r values method au = none := by
        simp [eligibleBuild, hs]
      simp only [MapAdapter.partialBuildGo, hs, Bool.false_eq_true, if_false]
      rw [ih first]
      simp [List.filterMap_cons, he]

theorem specSelect_eq (a : MapAdapter) (ep : Str) (values : Values)
    (method : Option Str) (au : Bool) :
    a.partialBuildGo values method au (a.map.updatedRules ep) none =
      specSelect a ep values method au := by
  rw [partialBuildGo_spec]
  unfold specSelect
  cases hm : a.map.host_matching with
  | false =>
    simp only [hm, Bool.false_eq_true, if_false]
    cases h : ((a.map.updatedRules ep).filterMap
        (fun r => eligibleBuild r values method au)).head? <;> simp
  | true =>
    simp only [hm, if_true]

/-- C4: rule selection in build — with no method the default method is tried
first and only on failure the scan is re-run with method None; the scan over
the endpoint's pre-sorted rule list returns the first rule suitable for the
values and method whose substitution succeeds, except that under host
matching a rule building to the bound server name wins with the first
eligible rule as fallback; and build fails with the BuildError signal
carrying endpoint, values and method exactly when no rule qualifies. -/
theorem c4_partial_build (a : MapAdapter) (ep : Str) (values : Values)
    (method : Option Str) (au fe : Bool) (us : Option Str) :
    a._partial_build ep values method au = specPartialBuild a ep values method au ∧
    (a.buildCore ep values method fe au us = .buildError ep values method ↔
      specPartialBuild a ep values method au = none) := by
  have h1 : a._partial_build ep values method au =
      specPartialBuild a ep values method au := by
    unfold MapAdapter._partial_build specPartialBuild
    cases method with
    | none =>
      dsimp only
      rw [specSelect_eq, specSelect_eq]
    | some m =>
      dsimp only
      rw [specSelect_eq]
  refine ⟨h1, ?_⟩
  unfold MapAdapter.buildCore
  rw [h1]
  cases h : specPartialBuild a ep values method au with
  | none => simp
  | some rv =>
    rcases rv with ⟨d, p, w⟩
    simp only [h]
    have hok : ∀ (c : Prop) (inst : Decidable c) (u1 u2 : Str),
        (if c then BuildResult.ok u1 else BuildResult.ok u2) ≠
          BuildResult.buildError ep values method := by
      intro c inst u1 u2
      split <;> simp
    constructor
    · intro hcontra
      exact absurd hcontra (hok _ _ _ _)
    · intro hcontra
      exact absurd hcontra (by simp)

theorem c4_partial_build_witness :
    adapterB._partial_build (str "index") [] (some (str "GET")) true =
      specPartialBuild adapterB (str "index") [] (some (str "GET")) true ∧
    adapterB._partial_build (str "index") [] (some (str "GET")) true =
      some ([], str "/", false) := by
  refine ⟨(c4_partial_build adapterB (str "index") [] (some (str "GET"))
    true false none).1, by decide⟩

/-- The generic rule of the default-redirect counterexample: /all/page/&lt;page&gt;. -/
def ruleG : Rule :=
  { endpoint := str "e"
    pattern := [.lit (str "all"), .lit (str "page"), .var (str "page")]
    methods := none
    defaults := []
    domain_part := []
    build_only := false
    websocket := false
    aliasFlag := false
    redirect_to := none }

/-- The specific default-bearing rule, registered after ruleG: /all/ with
default page=1. -/
def ruleD : Rule :=
  { endpoint := str "e"
    pattern := [.lit (str "all"), .lit []]
    methods := none
    defaults := [(str "page", PyVal.pystr (str "1"))]
    domain_part := []
    build_only := false
    websocket := false
    aliasFlag := false
    redirect_to := none }

/-- The endpoint e holds ruleG then ruleD in registration order; after
update the build-key sort puts ruleD (no variables) first. -/
def mapCD : Map :=
  { rules_by_endpoint := [(str "e", [ruleG, ruleD])]
    default_subdomain := []
    strict_slashes := true
    merge_slashes := true
    redirect_defaults := true
    host_matching := false }

/-- An adapter binding mapCD to example.com at the root. -/
def adapterC : MapAdapter :=
  { map := mapCD
    server_name := str "example.com"
    script_name := str "/"
    subdomain := some []
    url_scheme := str "http"
    path_info := str "/"
    default_method := str "GET"
    query_args := none }

/-- C3 counterexample: matching the generic rule ruleG with page=1 triggers
a default redirect through ruleD although ruleD was registered after ruleG —
no rule at all precedes ruleG in registration order, so under the claim (the
scan covers exactly the rules registered before the matched one) no default
redirect could occur; the code scans the build-key-sorted list instead. -/
theorem c3_counterexample :
    adapterC.get_default_redirect ruleG (str "GET")
        [(str "page", PyVal.pystr (str "1"))] none =
      some (str "http://example.com/all/") ∧
    (adapterC.map.registered ruleG.endpoint).takeWhile (fun r => r != ruleG) = [] ∧
    adapterC.defaultRedirectGo ruleG (str "GET")
        [(str "page", PyVal.pystr (str "1"))] none
        ((adapterC.map.registered ruleG.endpoint).takeWhile (fun r => r != ruleG)) =
      none := by
  decide

/-- Claim-side description of the default-redirect scan (C3 amended): among
the rules that precede the matched rule in the endpoint's post-update list
(sorted by the build-comparison key), the first one that provides defaults
for the matched rule and is suitable for the matched values and method
determines the redirect, built from its own defaults-updated values. -/
def specDefaultRedirect (a : MapAdapter) (rule : Rule) (method : Str)
    (values : Values) (qa : Option Str) : Option Str :=
  match ((a.map.updatedRules rule.endpoint).takeWhile (fun r => r != rule)).find?
      (fun r => r.provides_defaults_for rule &&
        r.suitable_for values (some method)) with
  | some r =>
    match r.build (updateVals values r.defaults) true with
    | some dp => some (a.make_redirect_url dp.2 qa (some dp.1))
    | none => none
  | none => none

theorem defaultRedirectGo_spec (a : MapAdapter) (rule : Rule) (method : Str)
    (values : Values) (qa : Option Str) :
    ∀ l : List Rule,
      a.defaultRedirectGo rule method values qa l =
        match (l.takeWhile (fun r => r != rule)).find?
            (fun r => r.provides_defaults_for rule &&
              r.suitable_for values (some method)) with
        | some r =>
          match r.build (updateVals values r.defaults) true with
          | some dp => some (a.make_redirect_url dp.2 qa (some dp.1))
          | none => none
        | none => none := by
  intro l
  induction l with
  | nil => rfl
  | cons r rs ih =>
    by_cases he : (r == rule) = true
    · simp only [MapAdapter.defaultRedirectGo, he, if_true, List.takeWhile_cons,
        bne, he, Bool.not_true, Bool.false_eq_true, if_false, List.find?_nil]
    · by_cases hp : (r.provides_defaults_for rule &&
          r.suitable_for values (some method)) = true
      · simp only [MapAdapter.defaultRedirectGo, he, Bool.false_eq_true,
          if_false, hp, if_true, List.takeWhile_cons, bne, List.find?_cons]
        simp only [Bool.not_eq_true] at he
        simp [he, hp]
        cases hb : r.build (updateVals values r.defaults) true with
        | none => rfl
        | some dp =>
          rcases dp with ⟨d2, p2⟩
          rfl
      · simp only [MapAdapter.defaultRedirectGo, he, Bool.false_eq_true,
          if_false, hp, ih, List.takeWhile_cons, bne, List.find?_cons]
        simp only [Bool.not_eq_true] at he
        simp only [Bool.not_eq_true] at hp
        simp [he, hp]

/-- C3 amended: when redirect_defaults is enabled and match obtains a direct
Matched outcome, the rules scanned are exactly those preceding the matched
rule in the endpoint's post-update rule list, which is sorted by the
build-comparison key — not the registration order; the first such rule that
provides defaults compatible with the matched values and is suitable for
them and the current method causes match to fail with a redirect to that
rule's own built URL, and no default redirect occurs when no such rule
exists. -/
theorem c3_default_redirect_sorted_scan :
    (∀ (a : MapAdapter) (rule : Rule) (method : Str) (values : Values)
        (qa : Option Str),
      a.get_default_redirect rule method values qa =
        specDefaultRedirect a rule method values qa) ∧
    (∀ (a : MapAdapter) (rule : Rule) (values : Values) (m q url : Str)
        (rr : Bool) (ws : Option Bool) (pi : Option Str),
      m ≠ [] →
      a.map.redirect_defaults = true →
      a.get_default_redirect rule (toUpperStr m) values (some q) = some url →
      a.matchWith (fun _ _ _ _ => .matched rule values) pi (some m) rr
        (some q) ws = .redirect url) := by
  constructor
  · intro a rule method values qa
    exact defaultRedirectGo_spec a rule method values qa _
  · intro a rule values m q url rr ws pi hm hrd hred
    unfold MapAdapter.matchWith
    dsimp only
    rw [isEmpty_false_of_ne_nil hm]
    simp only [Bool.false_eq_true, if_false, hrd, if_true, hred]

theorem c3_default_redirect_sorted_scan_witness :
    str "GET" ≠ [] ∧
    adapterC.matchWith
        (fun _ _ _ _ => .matched ruleG [(str "page", PyVal.pystr (str "1"))])
        none (some (str "GET")) false (some []) none =
      .redirect (str "http://example.com/all/") := by
  refine ⟨by decide, ?_⟩
  exact c3_default_redirect_sorted_scan.2 adapterC ruleG
    [(str "page", PyVal.pystr (str "1"))] (str "GET") [] (str "http://example.com/all/")
    false none none (by decide) rfl (by decide)

theorem alookup_append_left {α : Type} (vs ds : List (Str × α)) (n : Str)
    (v : α) (h : alookup vs n = some v) : alookup (vs ++ ds) n = some v := by
  induction vs with
  | nil => simp [alookup] at h
  | cons kv rest ih =>
    rcases kv with ⟨k, w⟩
    by_cases hk : k = n
    · rw [List.cons_append]
      unfold alookup at h ⊢
      rw [if_pos hk] at h ⊢
      exact h
    · rw [List.cons_append]
      unfold alookup at h ⊢
      rw [if_neg hk] at h ⊢
      exact ih h

theorem alookup_mem_keys {α : Type} (vs : List (Str × α)) (n : Str) (v : α)
    (h : alookup vs n = some v) : n ∈ vs.map (fun kv => kv.1) := by
  induction vs with
  | nil => simp [alookup] at h
  | cons kv rest ih =>
    rcases kv with ⟨k, w⟩
    by_cases hk : k = n
    · rw [List.map_cons]
      exact List.mem_cons.mpr (Or.inl hk.symm)
    · unfold alookup at h
      rw [if_neg hk] at h
      rw [List.map_cons]
      exact List.mem_cons.mpr (Or.inr (ih h))

theorem segMatch_keys : ∀ (ps : List Part) (segs : List Str) (vals : Values),
    segMatch ps segs = some vals →
    vals.map (fun kv => kv.1) = patternVars ps := by
  intro ps
  induction ps with
  | nil =>
    intro segs vals h
    cases segs with
    | nil => simp [segMatch] at h; simp [← h, patternVars]
    | cons s t => simp [segMatch] at h
  | cons part ps ih =>
    intro segs vals h
    cases part with
    | lit s =>
      cases segs with
      | nil => simp [segMatch] at h
      | cons seg t =>
        simp only [segMatch] at h
        by_cases hs : (seg == s) = true
        · rw [if_pos hs] at h
          simp only [patternVars]
          exact ih t vals h
        · rw [if_neg hs] at h; exact absurd h (by simp)
    | var n =>
      cases segs with
      | nil => simp [segMatch] at h
      | cons seg t =>
        simp only [segMatch] at h
        by_cases hs : (!seg.isEmpty) = true
        · rw [if_pos hs] at h
          cases hm : segMatch ps t with
          | none => rw [hm] at h; exact absurd h (by simp)
          | some vals2 =>
            rw [hm] at h
            simp only [Option.map_some' , Option.some.injEq] at h
            rw [← h]
            simp only [List.map_cons, patternVars]
            rw [ih t vals2 hm]
        · rw [if_neg hs] at h; exact absurd h (by simp)

theorem segMatch_vals_pystr : ∀ (ps : List Part) (segs : List Str)
    (vals : Values), segMatch ps segs = some vals →
    ∀ kv ∈ vals, ∃ s, kv.2 = PyVal.pystr s := by
  intro ps
  induction ps with
  | nil =>
    intro segs vals h
    cases segs with
    | nil =>
      simp [segMatch] at h
      subst h
      intro kv hkv
      exact absurd hkv (List.not_mem_nil kv)
    | cons s t => simp [segMatch] at h
  | cons part ps ih =>
    intro segs vals h
    cases part with
    | lit s =>
      cases segs with
      | nil => simp [segMatch] at h
      | cons seg t =>
        simp only [segMatch] at h
        by_cases hs : (seg == s) = true
        · rw [if_pos hs] at h
          exact ih t vals h
        · rw [if_neg hs] at h; exact absurd h (by simp)
    | var n =>
      cases segs with
      | nil => simp [segMatch] at h
      | cons seg t =>
        simp only [segMatch] at h
        by_cases hs : (!seg.isEmpty) = true
        · rw [if_pos hs] at h
          cases hm : segMatch ps t with
          | none => rw [hm] at h; exact absurd h (by simp)
          | some vals2 =>
            rw [hm] at h
            simp only [Option.map_some' , Option.some.injEq] at h
            rw [← h]
            intro kv hkv
            rcases List.mem_cons.mp hkv with heq | hmem
            · exact ⟨seg, by rw [heq]⟩
            · exact ih t vals2 hm kv hmem
        · rw [if_neg hs] at h; exact absurd h (by simp)

theorem segMatch_build : ∀ (ps : List Part) (segs : List Str) (vals : Values),
    segMatch ps segs = some vals → (patternVars ps).Nodup →
    ∀ ctx : Values,
      (∀ n v, alookup vals n = some v → alookup ctx n = some v) →
      segBuild ps ctx = some segs := by
  intro ps
  induction ps with
  | nil =>
    intro segs vals h _ ctx _
    cases segs with
    | nil => rfl
    | cons s t => simp [segMatch] at h
  | cons part ps ih =>
    intro segs vals h hnd ctx hctx
    cases part with
    | lit s =>
      cases segs with
      | nil => simp [segMatch] at h
      | cons seg t =>
        simp only [segMatch] at h
        by_cases hs : (seg == s) = true
        · rw [if_pos hs] at h
          have hseg : seg = s := by simpa using hs
          simp only [segBuild]
          rw [ih t vals h (by simpa [patternVars] using hnd) ctx hctx]
          simp [hseg]
        · rw [if_neg hs] at h; exact absurd h (by simp)
    | var n =>
      cases segs with
      | nil => simp [segMatch] at h
      | cons seg t =>
        simp only [segMatch] at h
        by_cases hs : (!seg.isEmpty) = true
        · rw [if_pos hs] at h
          cases hm : segMatch ps t with
          | none => rw [hm] at h; exact absurd h (by simp)
          | some vals2 =>
            rw [hm] at h
            simp only [Option.map_some' , Option.some.injEq] at h
            have hnd2 : n ∉ patternVars ps ∧ (patternVars ps).Nodup := by
              simpa [patternVars] using hnd
            have hn : alookup ctx n = some (PyVal.pystr seg) := by
              apply hctx
              rw [← h]
              simp [alookup]
            simp only [segBuild, hn]
            have hctx2 : ∀ m v, alookup vals2 m = some v →
                alookup ctx m = some v := by
              intro m v hv
              apply hctx
              have hmem : m ∈ vals2.map (fun kv => kv.1) :=
                alookup_mem_keys vals2 m v hv
              rw [segMatch_keys ps t vals2 hm] at hmem
              have hne : n ≠ m := fun he => hnd2.1 (he ▸ hmem)
              rw [← h]
              simp [alookup, hne, hv]
            rw [ih t vals2 hm hnd2.2 ctx hctx2]
            rfl
        · rw [if_neg hs] at h; exact absurd h (by simp)

theorem filter_not_contains_nil (vals : Values) (keys : List Str)
    (h : ∀ kv ∈ vals, kv.1 ∈ keys) :
    vals.filter (fun kv => !(keys.contains kv.1)) = [] := by
  induction vals with
  | nil => rfl
  | cons kv rest ih =>
    have hk : keys.contains kv.1 = true := by
      simp [List.contains, h kv (List.mem_cons_self kv rest)]
    simp only [List.filter_cons, hk, Bool.not_true, Bool.false_eq_true,
      if_false]
    exact ih (fun kv2 hkv2 => h kv2 (List.mem_cons_of_mem kv hkv2))

theorem dropWhile_idem (q : Char → Bool) (l : Str) :
    (l.dropWhile q).dropWhile q = l.dropWhile q := by
  induction l with
  | nil => rfl
  | cons c t ih =>
    by_cases hc : q c = true
    · simp [List.dropWhile_cons, hc, ih]
    · simp [List.dropWhile_cons, hc]

theorem partialBuildGo_find (a : MapAdapter) (vals : Values) (m : Str)
    (au : Bool) (r : Rule) (d pth : Str)
    (hhm : a.map.host_matching = false ∨ d = a.server_name)
    (hbuild : r.build vals au = some (d, pth)) :
    ∀ l : List Rule,
      l.find? (fun r2 => r2.suitable_for vals (some m)) = some r →
      a.partialBuildGo vals (some m) au l none = some (d, pth, r.websocket) := by
  intro l
  induction l with
  | nil => intro h; simp at h
  | cons x xs ih =>
    intro h
    rw [List.find?_cons] at h
    by_cases hx : x.suitable_for vals (some m) = true
    · rw [hx] at h
      dsimp only at h
      have hxr : x = r := by simpa using h
      subst hxr
      rcases hhm with h0 | h0
      · simp only [MapAdapter.partialBuildGo, hx, if_true, hbuild, h0,
          Bool.false_eq_true, if_false]
      · cases hm2 : a.map.host_matching with
        | false =>
          simp only [MapAdapter.partialBuildGo, hx, if_true, hbuild, hm2,
            Bool.false_eq_true, if_false]
        | true =>
          simp [MapAdapter.partialBuildGo, hx, hbuild, hm2, h0]
    · have hx2 : x.suitable_for vals (some m) = false := by
        cases hv : x.suitable_for vals (some m)
        · rfl
        · exact absurd hv hx
      rw [hx2] at h
      dsimp only at h
      simp only [MapAdapter.partialBuildGo, hx2, Bool.false_eq_true, if_false]
      exact ih h

theorem specMatchGo_matched (dom : Str) (segs : List Str) (m : Str) (ws : Bool)
    (r : Rule) (vals : Values) :
    ∀ (L : List Rule) (hf : List Str) (wm : Bool),
      specMatchGo dom segs m ws L hf wm = .matched r vals →
      ∃ ex, segMatch r.pattern segs = some ex ∧ vals = ex ++ r.defaults ∧
        r.domain_part = dom ∧ r.websocket = ws ∧ r.aliasFlag = false ∧
        r.build_only = false ∧ methodOk r.methods (some m) = true := by
  intro L
  induction L with
  | nil => intro hf wm h; simp [specMatchGo] at h
  | cons x xs ih =>
    intro hf wm h
    by_cases hd : (!x.build_only && x.domain_part == dom) = true
    · simp only [specMatchGo, hd, if_true] at h
      cases hsm : segMatch x.pattern segs with
      | none =>
        rw [hsm] at h
        dsimp only at h
        exact ih hf wm h
      | some vals0 =>
        rw [hsm] at h
        dsimp only at h
        by_cases hws : (x.websocket != ws) = true
        · rw [if_pos hws] at h
          exact ih hf true h
        · rw [if_neg hws] at h
          by_cases hmo : (!(methodOk x.methods (some m))) = true
          · rw [if_pos hmo] at h
            exact ih _ wm h
          · rw [if_neg hmo] at h
            by_cases hal : x.aliasFlag = true
            · rw [if_pos hal] at h
              exact absurd h (by simp)
            · rw [if_neg hal] at h
              have hinj : x = r ∧ vals0 ++ x.defaults = vals := by
                simpa using h
              rcases hinj with ⟨hxr, hv⟩
              subst hxr
              refine ⟨vals0, hsm, hv.symm, ?_, ?_, ?_, ?_, ?_⟩
              · have := (Bool.and_eq_true _ _).mp hd
                simpa using this.2
              · have : (x.websocket == ws) = true := by
                  cases hb : (x.websocket == ws)
                  · exact absurd (by simp [bne, hb]) hws
                  · rfl
                simpa using this
              · cases ha : x.aliasFlag
                · rfl
                · exact absurd ha hal
              · have := (Bool.and_eq_true _ _).mp hd
                simpa using this.1
              · cases hmk : methodOk x.methods (some m)
                · exact absurd (by simp [hmk]) hmo
                · rfl
    · have hd2 : (!x.build_only && x.domain_part == dom) = false := by
        cases hv : (!x.build_only && x.domain_part == dom)
        · rfl
        · exact absurd hv hd
      simp only [specMatchGo, hd2, Bool.false_eq_true, if_false] at h
      exact ih hf wm h

theorem specMatch_matched (L : List Rule) (dom path m : Str) (ws : Bool)
    (r : Rule) (vals : Values)
    (h : specMatch L dom path m ws = .matched r vals) :
    path.head? = some '/' ∧
    ∃ ex, segMatch r.pattern ((path.drop 1).splitOn '/') = some ex ∧
      vals = ex ++ r.defaults ∧ r.domain_part = dom ∧ r.websocket = ws ∧
      r.aliasFlag = false ∧ r.build_only = false ∧
      methodOk r.methods (some m) = true := by
  unfold specMatch at h
  by_cases hp : path.head? = some '/'
  · rw [if_pos hp] at h
    exact ⟨hp, specMatchGo_matched dom _ m ws r vals L [] false h⟩
  · rw [if_neg hp] at h
    exact absurd h (by simp)

theorem dictNormalize_id (vals : Values)
    (h : ∀ kv ∈ vals, kv.2 ≠ PyVal.pynone) :
    (if !vals.isEmpty then vals.filter (fun kv => kv.2 != PyVal.pynone)
     else []) = vals := by
  cases vals with
  | nil => rfl
  | cons kv rest =>
    simp only [List.isEmpty_cons, Bool.not_false, if_true]
    apply List.filter_eq_self.mpr
    intro a ha
    simpa [bne_iff_ne] using h a ha

/-- C2 amended: the round-trip law holds for the rule that build itself
selects.  For a rule with no conflicting defaults — its variable names and
default keys are distinct, and no earlier rule provides defaults triggering
a default redirect — and which is the first rule of its endpoint in the
build order suitable for the matched values (otherwise build rebuilds an
earlier rule's path instead, see the counterexample), a successful match of
a path yields the endpoint and values from which build, bound identically
(same domain binding, the same method), rebuilds exactly the normalized
requested path rooted at the script name (scheme and host normalization
being the relative-URL shortcut). -/
theorem c2_round_trip (a : MapAdapter) (L : List Rule) (r : Rule) (p : Str)
    (vals : Values) (m : Str)
    (hm_ne : m ≠ []) (hupper : toUpperStr m = m)
    (hdom2 : a.map.host_matching = true ∨ a.subdomain = some a.matchDomain)
    (hM : specMatch L a.matchDomain (pathPart p) m false = .matched r vals)
    (hnd : (patternVars r.pattern ++
      r.defaults.map (fun kv => kv.1)).Nodup)
    (hdefv : ∀ kv ∈ r.defaults, kv.2 ≠ PyVal.pynone)
    (hrt : r.redirect_to = none)
    (hrd : a.map.redirect_defaults = true →
      a.get_default_redirect r m vals a.query_args = none)
    (hfind : (a.map.updatedRules r.endpoint).find?
        (fun r2 => r2.suitable_for vals (some m)) = some r) :
    a.matchWith (specMatch L) (some p) (some m) false none (some false) =
      .okEndpoint r.endpoint vals ∧
    a.build r.endpoint (.dict vals) (some m) false true none =
      .ok (rstrip a.script_name '/' ++ pathPart p) := by
  obtain ⟨hp, ex, hsm, hv, hdom, hws, -, -, -⟩ :=
    specMatch_matched L a.matchDomain (pathPart p) m false r vals hM
  have hpne : p ≠ [] := by
    intro he
    subst he
    simp [pathPart] at hp
  have hpp : pathPart p = '/' :: lstrip p '/' := by
    simp [pathPart, isEmpty_false_of_ne_nil hpne]
  have hds : a.map.host_matching = true → r.domain_part = a.server_name := by
    intro hm2
    rw [hdom]
    unfold MapAdapter.matchDomain
    simp [hm2]
  have hvals_ok : ∀ kv ∈ vals, kv.2 ≠ PyVal.pynone := by
    intro kv hkv
    rw [hv] at hkv
    rcases List.mem_append.mp hkv with hkv2 | hkv2
    · obtain ⟨s, hs⟩ := segMatch_vals_pystr r.pattern _ ex hsm kv hkv2
      rw [hs]
      intro hcontra
      exact PyVal.noConfusion hcontra
    · exact hdefv kv hkv2
  -- the rebuilt path of the matched rule
  have hsegs : renderPath (((pathPart p).tail).splitOn '/') = pathPart p := by
    rw [hpp]
    simp only [List.tail_cons]
    unfold renderPath
    rw [List.intercalate_splitOn]
  have hbuild : r.build vals true = some (r.domain_part, pathPart p) := by
    unfold Rule.build
    have hctx : ∀ n v, alookup ex n = some v →
        alookup (vals ++ r.defaults) n = some v := by
      intro n v hnv
      rw [hv, List.append_assoc]
      exact alookup_append_left ex (r.defaults ++ r.defaults) n v hnv
    rw [segMatch_build r.pattern _ ex hsm (hnd.of_append_left) _ hctx]
    have huncon : vals.filter
        (fun kv => !(r.arguments.contains kv.1)) = [] := by
      apply filter_not_contains_nil
      intro kv hkv
      rw [hv] at hkv
      unfold Rule.arguments
      rcases List.mem_append.mp hkv with hkv2 | hkv2
      · apply List.mem_append.mpr (Or.inl _)
        rw [← segMatch_keys r.pattern _ ex hsm]
        exact List.mem_map.mpr ⟨kv, hkv2, rfl⟩
      · exact List.mem_append.mpr (Or.inr (List.mem_map.mpr ⟨kv, hkv2, rfl⟩))
    dsimp only
    rw [huncon]
    simp [hsegs]
  have hhm2 : a.map.host_matching = false ∨ r.domain_part = a.server_name := by
    cases hm2 : a.map.host_matching with
    | false => exact Or.inl rfl
    | true => exact Or.inr (hds hm2)
  have hpb : a._partial_build r.endpoint vals (some m) true =
      some (r.domain_part, pathPart p, r.websocket) := by
    unfold MapAdapter._partial_build
    exact partialBuildGo_find a vals m true r r.domain_part (pathPart p)
      hhm2 hbuild _ hfind
  constructor
  · unfold MapAdapter.matchWith
    dsimp only
    rw [isEmpty_false_of_ne_nil hm_ne]
    simp only [Bool.false_eq_true, if_false, hupper]
    have hgdr : (if a.map.redirect_defaults = true then
        a.get_default_redirect r m vals a.query_args else none) = none := by
      by_cases hrd0 : a.map.redirect_defaults = true
      · rw [if_pos hrd0]
        exact hrd hrd0
      · rw [if_neg hrd0]
    rw [hM]
    dsimp only
    rw [hgdr]
    dsimp only
    rw [hrt]
  · unfold MapAdapter.build
    dsimp only
    rw [dictNormalize_id vals hvals_ok]
    unfold MapAdapter.buildCore
    rw [hpb]
    dsimp only
    rw [hws]
    have hcond : (!(if false then true else false) &&
        ((a.map.host_matching && (a.get_host (some r.domain_part) == a.server_name)) ||
         (!a.map.host_matching && (a.subdomain == some r.domain_part)))) = true := by
      cases hm2 : a.map.host_matching with
      | true => simp [MapAdapter.get_host, hm2, hds hm2]
      | false =>
        rcases hdom2 with h0 | h0
        · rw [hm2] at h0
          exact absurd h0 (by simp)
        · simp [hm2, h0, hdom]
    rw [if_pos hcond]
    have hls : lstrip (pathPart p) '/' = lstrip p '/' := by
      rw [hpp]
      unfold lstrip
      rw [List.dropWhile_cons]
      simp [dropWhile_idem]
    rw [hls, hpp]

theorem c2_round_trip_witness :
    adapterW.matchWith (specMatch [ruleShow]) (some (str "/downloads/42"))
        (some (str "GET")) false none (some false) =
      .okEndpoint (str "show") [(str "id", PyVal.pystr (str "42"))] ∧
    adapterW.build (str "show")
        (.dict [(str "id", PyVal.pystr (str "42"))]) (some (str "GET"))
        false true none =
      .ok (rstrip adapterW.script_name '/' ++ pathPart (str "/downloads/42")) := by
  exact c2_round_trip adapterW [ruleShow] ruleShow (str "/downloads/42")
    [(str "id", PyVal.pystr (str "42"))] (str "GET")
    (by decide) (by decide) (Or.inr (by decide)) (by decide) (by decide)
    (by intro kv hkv; exact absurd hkv (List.not_mem_nil kv)) rfl
    (fun _ => by decide) (by decide)

/-- A rule for /a/&lt;x&gt; under endpoint e, registered first. -/
def ruleA : Rule :=
  { endpoint := str "e"
    pattern := [.lit (str "a"), .var (str "x")]
    methods := none
    defaults := []
    domain_part := []
    build_only := false
    websocket := false
    aliasFlag := false
    redirect_to := none }

/-- A rule for /b/&lt;x&gt; under the same endpoint e, registered second. -/
def ruleB : Rule :=
  { endpoint := str "e"
    pattern := [.lit (str "b"), .var (str "x")]
    methods := none
    defaults := []
    domain_part := []
    build_only := false
    websocket := false
    aliasFlag := false
    redirect_to := none }

/-- A map holding ruleA and ruleB for the one endpoint e, with the default
policies; no rule anywhere carries defaults. -/
def mapAB : Map :=
  { rules_by_endpoint := [(str "e", [ruleA, ruleB])]
    default_subdomain := []
    strict_slashes := true
    merge_slashes := true
    redirect_defaults := true
    host_matching := false }

/-- An adapter binding mapAB to example.com at the root. -/
def adapterAB : MapAdapter :=
  { map := mapAB
    server_name := str "example.com"
    script_name := str "/"
    subdomain := some []
    url_scheme := str "http"
    path_info := str "/"
    default_method := str "GET"
    query_args := none }

/-- C2 counterexample: two same-endpoint rules with no defaults anywhere (so
no conflicting defaults), bound identically.  match of /b/42 succeeds via
the second rule with values x=42, yet build for that endpoint and those
values returns /a/42 — the endpoint's pre-sorted rule list takes precedence
and the first suitable rule wins, so the round-trip law fails as stated. -/
theorem c2_counterexample :
    adapterAB.matchWith (specMatch [ruleA, ruleB]) (some (str "/b/42"))
        (some (str "GET")) false none (some false) =
      .okEndpoint (str "e") [(str "x", PyVal.pystr (str "42"))] ∧
    adapterAB.build (str "e") (.dict [(str "x", PyVal.pystr (str "42"))])
        (some (str "GET")) false true none = .ok (str "/a/42") ∧
    str "/a/42" ≠ rstrip adapterAB.script_name '/' ++ pathPart (str "/b/42") ∧
    ruleA.defaults = [] ∧ ruleB.defaults = [] := by
  decide

end Routing
